import Mathlib

/-!
Shallow embedding of the Futuur MCP authenticated request pipeline
(`src/utils/api.ts`: `buildAuthHeaders`, `fetchFromFutuur`), together with
models of the JavaScript / WHATWG platform primitives the code calls
(`Array.prototype.sort` on strings, JavaScript object key ordering,
`URLSearchParams` form-urlencoding, `Object.fromEntries`, UTF-8,
HMAC-SHA512 per FIPS 180-4 / RFC 2104, `dotenv.config`), and proofs of the
specified properties of the pipeline.
-/

namespace Futuur

/-! ## JavaScript string primitives -/

/-- UTF-16 code units of a character, as used by JavaScript string ordering. -/
def charUnits (c : Char) : List Nat :=
  if c.toNat < 65536 then [c.toNat]
  else [55296 + (c.toNat - 65536) / 1024, 56320 + (c.toNat - 65536) % 1024]

/-- UTF-16 code units of a character list. -/
def unitsOfChars (l : List Char) : List Nat :=
  l.foldr (fun c acc => charUnits c ++ acc) []

/-- UTF-16 code units of a string. -/
def utf16Units (s : String) : List Nat :=
  unitsOfChars s.data

/-- Boolean lexicographic order on code-unit lists; this is the comparison that
JavaScript `Array.prototype.sort` applies to strings (by UTF-16 code units). -/
def unitsLe : List Nat → List Nat → Bool
  | [], _ => true
  | _ :: _, [] => false
  | a :: as, b :: bs =>
    if a < b then true
    else if b < a then false
    else unitsLe as bs

/-- Default JavaScript string sort order: lexicographic on UTF-16 code units. -/
def jsStrLe (a b : String) : Prop := unitsLe (utf16Units a) (utf16Units b) = true

instance : DecidableRel jsStrLe := fun a b =>
  inferInstanceAs (Decidable (unitsLe (utf16Units a) (utf16Units b) = true))

/-- ASCII decimal digit test. -/
def isDigitChar (c : Char) : Bool := 48 ≤ c.toNat && c.toNat ≤ 57

/-- Decimal parse of a string: `some n` exactly when the string is a nonempty
run of ASCII digits (the semantics of `String.toNat?`). -/
def strToNatOpt (s : String) : Option Nat :=
  if s.data ≠ [] ∧ s.data.all isDigitChar then
    some (s.data.foldl (fun n c => n * 10 + (c.toNat - 48)) 0)
  else none

/-- Whether a string is a canonical array-index key in the sense of JavaScript
object semantics: the canonical decimal numeral of some `n < 2^32 - 1`.
Such keys are enumerated before all other keys, in ascending numeric order. -/
def isArrayIndexKey (s : String) : Bool :=
  match strToNatOpt s with
  | some n => decide (toString n = s ∧ n < 4294967295)
  | none => false

/-- Numeric value of an array-index key (0 for other strings). -/
def natOfKey (s : String) : Nat := (strToNatOpt s).getD 0

/-- Total order used to model the ascending numeric enumeration of array-index
keys. Genuine array-index keys with equal numeric value are equal strings, so
the code-unit tie-break below never fires on them; it only makes the relation
antisymmetric on all strings. -/
def idxKeyLe (a b : String) : Prop :=
  natOfKey a < natOfKey b ∨ (natOfKey a = natOfKey b ∧ jsStrLe a b)

instance : DecidableRel idxKeyLe := fun a b =>
  inferInstanceAs (Decidable (natOfKey a < natOfKey b ∨ (natOfKey a = natOfKey b ∧ jsStrLe a b)))

/-- Ascending numeric sort of array-index keys. -/
def jsIndexSort (ks : List String) : List String :=
  List.insertionSort idxKeyLe ks

/-- Key enumeration order of a JavaScript object whose keys were inserted in
the order of the given list: array-index keys first in ascending numeric
order, then the remaining keys in insertion order. -/
def jsEntriesOrder {α : Type} (l : List (String × α)) : List (String × α) :=
  List.insertionSort (fun a b => idxKeyLe a.1 b.1) (l.filter (fun kv => isArrayIndexKey kv.1)) ++
    l.filter (fun kv => !isArrayIndexKey kv.1)

/-! ## Scalar values and their JavaScript string rendering -/

/-- Scalar JavaScript values appearing in query parameters and signing payloads. -/
inductive JSScalar where
  | str (s : String)
  | num (n : Int)
  | bool (b : Bool)
deriving DecidableEq

/-- JavaScript `String(v)` on a scalar. -/
def jsToString : JSScalar → String
  | .str s => s
  | .num n => toString n
  | .bool b => cond b "true" "false"

/-! ## UTF-8 and application/x-www-form-urlencoded serialization -/

/-- UTF-8 bytes of a character. -/
def charUtf8 (c : Char) : List Nat :=
  let n := c.toNat
  if n < 128 then [n]
  else if n < 2048 then [192 + n / 64, 128 + n % 64]
  else if n < 65536 then [224 + n / 4096, 128 + n / 64 % 64, 128 + n % 64]
  else [240 + n / 262144, 128 + n / 4096 % 64, 128 + n / 64 % 64, 128 + n % 64]

/-- UTF-8 bytes of a string. -/
def utf8Bytes (s : String) : List Nat :=
  s.data.foldr (fun c acc => charUtf8 c ++ acc) []

/-- Bytes kept verbatim by the form-urlencoded serializer:
ASCII alphanumerics and `*`, `-`, `.`, `_`. -/
def isFormSafeByte (b : Nat) : Bool :=
  (b == 42) || (b == 45) || (b == 46) || (b == 95) ||
    (48 ≤ b && b ≤ 57) || (65 ≤ b && b ≤ 90) || (97 ≤ b && b ≤ 122)

/-- Uppercase hexadecimal digit. -/
def hexDigitUpper (n : Nat) : Char := "0123456789ABCDEF".data.getD n '0'

/-- Lowercase hexadecimal digit. -/
def hexDigitLower (n : Nat) : Char := "0123456789abcdef".data.getD n '0'

/-- WHATWG application/x-www-form-urlencoded serialization of one byte:
space becomes `+`, safe bytes stay, everything else is percent-encoded. -/
def formByteChars (b : Nat) : List Char :=
  if b == 32 then ['+']
  else if isFormSafeByte b then [Char.ofNat b]
  else ['%', hexDigitUpper (b / 16 % 16), hexDigitUpper (b % 16)]

/-- Form-urlencoding of a string (the encoding `URLSearchParams.toString` uses
for both keys and values). -/
def formEncode (s : String) : String :=
  String.mk ((utf8Bytes s).foldr (fun b acc => formByteChars b ++ acc) [])

/-- One `key=value` component of a form-urlencoded string. -/
def encodePair (kv : String × String) : String :=
  formEncode kv.1 ++ "=" ++ formEncode kv.2

/-- `URLSearchParams.toString()`: the `key=value` pairs joined with `&`. -/
def formEncodePairs (l : List (String × String)) : String :=
  String.intercalate "&" (l.map encodePair)

/-- Lowercase hexadecimal rendering of a byte list (Node `digest("hex")`). -/
def bytesToHex (bs : List Nat) : String :=
  String.mk (bs.foldr (fun b acc => hexDigitLower (b / 16 % 16) :: hexDigitLower (b % 16) :: acc) [])

/-! ## SHA-512 and HMAC-SHA512 (model of Node `crypto.createHmac("sha512", ...)`,
per FIPS 180-4 and RFC 2104; round constants are derived from the standard's
definition as the fractional parts of cube / square roots of the first primes) -/

/-- Word size modulus `2^64`. -/
def w64 : Nat := 18446744073709551616

/-- Right rotation of a 64-bit word. -/
def rotr (n x : Nat) : Nat := (x / 2 ^ n + x % 2 ^ n * 2 ^ (64 - n)) % w64

/-- Bitwise complement of a 64-bit word. -/
def not64 (x : Nat) : Nat := x ^^^ (w64 - 1)

/-- FIPS 180-4 `Σ0`. -/
def bigSigma0 (x : Nat) : Nat := rotr 28 x ^^^ rotr 34 x ^^^ rotr 39 x

/-- FIPS 180-4 `Σ1`. -/
def bigSigma1 (x : Nat) : Nat := rotr 14 x ^^^ rotr 18 x ^^^ rotr 41 x

/-- FIPS 180-4 `σ0`. -/
def smallSigma0 (x : Nat) : Nat := rotr 1 x ^^^ rotr 8 x ^^^ x / 2 ^ 7

/-- FIPS 180-4 `σ1`. -/
def smallSigma1 (x : Nat) : Nat := rotr 19 x ^^^ rotr 61 x ^^^ x / 2 ^ 6

/-- FIPS 180-4 `Ch`. -/
def chFn (e f g : Nat) : Nat := (e &&& f) ^^^ (not64 e &&& g)

/-- FIPS 180-4 `Maj`. -/
def majFn (a b c : Nat) : Nat := (a &&& b) ^^^ (a &&& c) ^^^ (b &&& c)

/-- Integer cube root by bounded binary search. -/
def cbrtAux : Nat → Nat → Nat → Nat → Nat
  | 0, lo, _, _ => lo
  | fuel + 1, lo, hi, n =>
    if hi ≤ lo + 1 then lo
    else
      let mid := (lo + hi) / 2
      if mid * mid * mid ≤ n then cbrtAux fuel mid hi n else cbrtAux fuel lo mid n

/-- Integer cube root. -/
def natCbrt (n : Nat) : Nat := cbrtAux 300 0 (n + 2) n

/-- The first eighty primes. -/
def primes80 : List Nat :=
  [2, 3, 5, 7, 11, 13, 17, 19, 23, 29, 31, 37, 41, 43, 47, 53, 59, 61, 67, 71,
   73, 79, 83, 89, 97, 101, 103, 107, 109, 113, 127, 131, 137, 139, 149, 151,
   157, 163, 167, 173, 179, 181, 191, 193, 197, 199, 211, 223, 227, 229, 233,
   239, 241, 251, 257, 263, 269, 271, 277, 281, 283, 293, 307, 311, 313, 317,
   331, 337, 347, 349, 353, 359, 367, 373, 379, 383, 389, 397, 401, 409]

/-- SHA-512 round constants: first 64 bits of the fractional parts of the cube
roots of the first eighty primes. -/
def sha512K : List Nat := primes80.map (fun p => natCbrt (p * 2 ^ 192) % w64)

/-- SHA-512 initial hash value: first 64 bits of the fractional parts of the
square roots of the first eight primes. -/
def sha512H0 : List Nat := (primes80.take 8).map (fun p => Nat.sqrt (p * 2 ^ 128) % w64)

/-- Working state of the SHA-512 compression function. -/
structure Sha2State where
  a : Nat
  b : Nat
  c : Nat
  d : Nat
  e : Nat
  f : Nat
  g : Nat
  h : Nat
deriving DecidableEq

/-- State from a list of eight words. -/
def stateOfWords (l : List Nat) : Sha2State :=
  ⟨l.getD 0 0, l.getD 1 0, l.getD 2 0, l.getD 3 0,
   l.getD 4 0, l.getD 5 0, l.getD 6 0, l.getD 7 0⟩

/-- Big-endian word from (up to) eight bytes. -/
def bytesToWordBE (bs : List Nat) : Nat := bs.foldl (fun acc b => acc * 256 + b % 256) 0

/-- The sixteen message words of one 128-byte block. -/
def blockWords (block : List Nat) : List Nat :=
  (List.range 16).map (fun i => bytesToWordBE ((block.drop (8 * i)).take 8))

/-- One step of the message-schedule extension. -/
def scheduleStep (w : List Nat) : List Nat :=
  w ++ [(smallSigma1 (w.getD (w.length - 2) 0) + w.getD (w.length - 7) 0 +
         smallSigma0 (w.getD (w.length - 15) 0) + w.getD (w.length - 16) 0) % w64]

/-- Full eighty-word message schedule of a block. -/
def schedule (block : List Nat) : List Nat :=
  (List.range 64).foldl (fun acc _ => scheduleStep acc) (blockWords block)

/-- One SHA-512 round. -/
def sha512Round (s : Sha2State) (kw : Nat × Nat) : Sha2State :=
  let t1 := (s.h + bigSigma1 s.e + chFn s.e s.f s.g + kw.1 + kw.2) % w64
  let t2 := (bigSigma0 s.a + majFn s.a s.b s.c) % w64
  { a := (t1 + t2) % w64, b := s.a, c := s.b, d := s.c,
    e := (s.d + t1) % w64, f := s.e, g := s.f, h := s.g }

/-- Sum of two states, fieldwise mod `2^64`. -/
def addStates (x y : Sha2State) : Sha2State :=
  ⟨(x.a + y.a) % w64, (x.b + y.b) % w64, (x.c + y.c) % w64, (x.d + y.d) % w64,
   (x.e + y.e) % w64, (x.f + y.f) % w64, (x.g + y.g) % w64, (x.h + y.h) % w64⟩

/-- SHA-512 compression of one block. -/
def sha512Compress (s : Sha2State) (block : List Nat) : Sha2State :=
  addStates s ((sha512K.zip (schedule block)).foldl sha512Round s)

/-- Big-endian byte rendering of `n` on `k` bytes. -/
def natToBytesBE (k n : Nat) : List Nat :=
  (List.range k).map (fun i => n / 2 ^ (8 * (k - 1 - i)) % 256)

/-- SHA-512 message padding: `0x80`, zeros, and the 128-bit bit length. -/
def sha512Pad (msg : List Nat) : List Nat :=
  msg ++ [128] ++ List.replicate ((128 - (msg.length + 17) % 128) % 128) 0 ++
    natToBytesBE 16 (8 * msg.length)

/-- Split a byte list into 128-byte blocks. -/
def chunks128 (l : List Nat) : List (List Nat) :=
  if _h : l.length = 0 then [] else l.take 128 :: chunks128 (l.drop 128)
termination_by l.length
decreasing_by
  simp only [List.length_drop]
  omega

/-- Big-endian bytes of one 64-bit word. -/
def wordBytesBE (w : Nat) : List Nat :=
  [w / 2 ^ 56 % 256, w / 2 ^ 48 % 256, w / 2 ^ 40 % 256, w / 2 ^ 32 % 256,
   w / 2 ^ 24 % 256, w / 2 ^ 16 % 256, w / 2 ^ 8 % 256, w % 256]

/-- Digest bytes of a final state. -/
def stateBytes (s : Sha2State) : List Nat :=
  wordBytesBE s.a ++ wordBytesBE s.b ++ wordBytesBE s.c ++ wordBytesBE s.d ++
    wordBytesBE s.e ++ wordBytesBE s.f ++ wordBytesBE s.g ++ wordBytesBE s.h

/-- SHA-512 of a byte list. -/
def sha512 (msg : List Nat) : List Nat :=
  stateBytes ((chunks128 (sha512Pad msg)).foldl sha512Compress (stateOfWords sha512H0))

/-- HMAC-SHA512 (RFC 2104) with block size 128 bytes. -/
def hmacSha512 (key msg : List Nat) : List Nat :=
  let k0 := if 128 < key.length then sha512 key else key
  let kp := k0 ++ List.replicate (128 - k0.length) 0
  sha512 ((kp.map (fun b => b ^^^ 92)) ++ sha512 ((kp.map (fun b => b ^^^ 54)) ++ msg))

/-- Lowercase-hex HMAC-SHA512, as produced by
`crypto.createHmac("sha512", secret).update(s).digest("hex")`. -/
def hmacSha512Hex (key msg : List Nat) : String := bytesToHex (hmacSha512 key msg)

/-! ## Canonical signer (`buildAuthHeaders` in src/utils/api.ts) -/

/-- The two Futuur API secrets. -/
structure Credentials where
  publicKey : String
  privateKey : String
deriving DecidableEq

/-- The three authentication headers returned by `buildAuthHeaders`. -/
structure AuthHeaders where
  Key : String
  Timestamp : String
  HMAC : String
deriving DecidableEq

/-- First-match association-list lookup (JavaScript object property read,
given that object construction below keeps keys unique). -/
def lookupFirst {α : Type} (k : String) : List (String × α) → Option α
  | [] => none
  | (k', v) :: rest => if k' = k then some v else lookupFirst k rest

/-- Value of the signing set `... payload, Key: key, Timestamp: timestamp` at a
key: the injected `Key` and `Timestamp` overwrite any payload entry, all other
keys read the payload, stringified the way `URLSearchParams` renders values. -/
def signValue (payload : List (String × JSScalar)) (c : Credentials) (t : Nat) (k : String) :
    String :=
  if k = "Key" then c.publicKey
  else if k = "Timestamp" then toString t
  else jsToString ((lookupFirst k payload).getD (.str "undefined"))

/-- Key set of the signing object: payload keys plus `Key` and `Timestamp`. -/
def signKeys (payload : List (String × JSScalar)) : List String :=
  (payload.map Prod.fst ++ ["Key", "Timestamp"]).dedup

/-- The payload with any caller-supplied `Key` / `Timestamp` entries removed. -/
def stripAuth (payload : List (String × JSScalar)) : List (String × JSScalar) :=
  payload.filter (fun kv => !(kv.1 == "Key" || kv.1 == "Timestamp"))

/-- Keys of the signing object after `Object.keys(...).sort()` and re-insertion
into a fresh object (`reduce`): JavaScript sorts by UTF-16 code units, and the
receiving object hoists array-index keys to the front in ascending numeric
order, keeping the sorted order for the remaining keys. -/
def canonicalKeys (payload : List (String × JSScalar)) : List String :=
  let sorted := List.insertionSort jsStrLe (signKeys payload)
  jsIndexSort (sorted.filter isArrayIndexKey) ++ sorted.filter (fun k => !isArrayIndexKey k)

/-- The key/value pairs serialized by `new URLSearchParams(sortedParams)`. -/
def canonicalPairs (payload : List (String × JSScalar)) (c : Credentials) (t : Nat) :
    List (String × String) :=
  (canonicalKeys payload).map (fun k => (k, signValue payload c t k))

/-- The canonical signed string `paramString` of `buildAuthHeaders`. -/
def paramStringOf (payload : List (String × JSScalar)) (c : Credentials) (t : Nat) : String :=
  formEncodePairs (canonicalPairs payload c t)

/-- Pure core of `buildAuthHeaders`: payload, credentials and the current unix
time in whole seconds determine the three auth headers. -/
def buildAuthHeadersPure (payload : List (String × JSScalar)) (c : Credentials) (t : Nat) :
    AuthHeaders :=
  { Key := c.publicKey
  , Timestamp := toString t
  , HMAC := hmacSha512Hex (utf8Bytes c.privateKey) (utf8Bytes (paramStringOf payload c t)) }

/-! ## Process state: environment and `dotenv` -/

/-- State visible to `buildAuthHeaders`: the `.env` file contents, the process
environment, and the current time `Math.floor(Date.now() / 1000)`. -/
structure World where
  envFile : List (String × String)
  procEnv : List (String × String)
  nowSec : Nat
deriving DecidableEq

/-- Modelled from `dotenv.config()`: copy `.env` entries into the process
environment without overwriting variables that are already set. -/
def dotenvConfig (w : World) : World :=
  { w with procEnv :=
      w.procEnv ++ w.envFile.filter (fun kv => (lookupFirst kv.1 w.procEnv).isNone) }

/-- JavaScript falsiness of an optional environment string: `!x` is true
exactly for an absent variable or the empty string. -/
def envFalsy (o : Option String) : Bool :=
  match o with
  | none => true
  | some s => s == ""

/-- Boolean rendered the way the template literal renders `!!key`. -/
def jsBoolStr (b : Bool) : String := cond b "true" "false"

/-- Stateful `buildAuthHeaders`: reloads the environment via `dotenv.config()`,
fails when either key is missing or empty, otherwise signs with the current
environment values and time. Returns the result with the updated state. -/
def buildAuthHeadersW (payload : List (String × JSScalar)) (w : World) :
    Except String AuthHeaders × World :=
  let w' := dotenvConfig w
  let key := lookupFirst "FUTUUR_PUBLIC_KEY" w'.procEnv
  let secret := lookupFirst "FUTUUR_PRIVATE_KEY" w'.procEnv
  if envFalsy key || envFalsy secret then
    (.error ("Futuur keys missing in env: key=" ++ jsBoolStr (!envFalsy key) ++
      ", secret=" ++ jsBoolStr (!envFalsy secret)), w')
  else
    (.ok (buildAuthHeadersPure payload ⟨key.getD "", secret.getD ""⟩ w'.nowSec), w')

/-! ## Request builder (`fetchFromFutuur` in src/utils/api.ts) -/

/-- Values accepted for a query parameter: scalar, array of scalars, or
`undefined`. -/
inductive ParamVal where
  | scalar (v : JSScalar)
  | arr (vs : List JSScalar)
  | undef
deriving DecidableEq

/-- The three HTTP methods `fetchFromFutuur` accepts. -/
inductive HttpMethod where
  | GET
  | POST
  | PATCH
deriving DecidableEq

/-- Name of a method as transmitted. -/
def methodName : HttpMethod → String
  | .GET => "GET"
  | .POST => "POST"
  | .PATCH => "PATCH"

/-- The (zero or more) URL query pairs produced by one parameter entry:
`undefined` values are skipped, arrays are appended element by element via
`String(v)` preserving their order, scalars are appended via `String(value)`. -/
def expandParam (kv : String × ParamVal) : List (String × String) :=
  match kv.2 with
  | .undef => []
  | .scalar v => [(kv.1, jsToString v)]
  | .arr vs => vs.map (fun v => (kv.1, jsToString v))

/-- Query pairs appended to the URL: `Object.entries(params)` is walked in
JavaScript object key order and each entry contributes its pairs. -/
def urlQueryPairs (params : List (String × ParamVal)) : List (String × String) :=
  (jsEntriesOrder params).flatMap expandParam

/-- Fuel-driven worker for `fromEntriesLast` (structural recursion on fuel). -/
def fromEntriesAux : Nat → List (String × String) → List (String × String)
  | 0, _ => []
  | _ + 1, [] => []
  | fuel + 1, (k, v) :: rest =>
    (k, ((rest.filter (fun kv => kv.1 == k)).map Prod.snd).getLastD v) ::
      fromEntriesAux fuel (rest.filter (fun kv => kv.1 != k))

/-- Modelled from `Object.fromEntries(url.searchParams.entries())`: each key
appears once, at its first-occurrence position, with the value of its *last*
occurrence (later assignments to the same property overwrite the value). -/
def fromEntriesLast (l : List (String × String)) : List (String × String) :=
  fromEntriesAux l.length l

/-- The signature payload of a GET request: the URL's query pairs collapsed by
`Object.fromEntries`, values being the (string) parameter values. -/
def getSignaturePayload (params : List (String × ParamVal)) : List (String × JSScalar) :=
  (fromEntriesLast (urlQueryPairs params)).map (fun kv => (kv.1, .str kv.2))

/-- Substring test on character lists (JavaScript `String.prototype.includes`). -/
def listContainsSub (needle : List Char) : List Char → Bool
  | [] => needle.isPrefixOf ([] : List Char)
  | c :: t => needle.isPrefixOf (c :: t) || listContainsSub needle t

/-- JavaScript `endpoint.includes(sub)`. -/
def strContains (hay needle : String) : Bool := listContainsSub needle.data hay.data

/-- JavaScript `endpoint.startsWith(sub)`. -/
def strStartsWith (s t : String) : Bool := t.data.isPrefixOf s.data

/-- The configured public path roots of the v2.0 API. -/
def publicPrefixes : List String := ["events", "categories"]

/-- Endpoint classification of `fetchFromFutuur`: public iff the endpoint
starts with a public root or contains `"/" + root` as a substring. -/
def isPublicEndpoint (endpoint : String) : Bool :=
  publicPrefixes.any (fun p => strStartsWith endpoint p || strContains endpoint ("/" ++ p))

/-- Classification outcome. -/
inductive EndpointClass where
  | publicAccess
  | authenticated
deriving DecidableEq

/-- `EndpointClass`-valued classifier. -/
def classifyEndpoint (endpoint : String) : EndpointClass :=
  if isPublicEndpoint endpoint then .publicAccess else .authenticated

/-! ## JSON serialization of flat bodies (`JSON.stringify`) -/

/-- JSON escape of one character. -/
def jsonEscapeChar (c : Char) : List Char :=
  if c = '"' then ['\\', '"']
  else if c = '\\' then ['\\', '\\']
  else if c.toNat = 8 then ['\\', 'b']
  else if c.toNat = 9 then ['\\', 't']
  else if c.toNat = 10 then ['\\', 'n']
  else if c.toNat = 12 then ['\\', 'f']
  else if c.toNat = 13 then ['\\', 'r']
  else if c.toNat < 32 then
    ['\\', 'u', '0', '0', hexDigitLower (c.toNat / 16 % 16), hexDigitLower (c.toNat % 16)]
  else [c]

/-- JSON string literal. -/
def jsonStr (s : String) : String :=
  "\"" ++ String.mk (s.data.foldr (fun c acc => jsonEscapeChar c ++ acc) []) ++ "\""

/-- JSON rendering of a scalar value. -/
def jsonScalar : JSScalar → String
  | .str s => jsonStr s
  | .num n => toString n
  | .bool b => cond b "true" "false"

/-- `JSON.stringify` of a flat object of scalars, in JavaScript object key
enumeration order. -/
def jsonStringify (fields : List (String × JSScalar)) : String :=
  "\x7b" ++
    String.intercalate ","
      ((jsEntriesOrder fields).map (fun kv => jsonStr kv.1 ++ ":" ++ jsonScalar kv.2)) ++
    "\x7d"

/-! ## Assembled request and transport error -/

/-- The outbound request as assembled by `fetchFromFutuur` just before `fetch`. -/
structure BuiltRequest where
  url : String
  headers : List (String × String)
  bodyStr : Option String
deriving DecidableEq

/-- The v2.0 base URL. -/
def baseUrl : String := "https://api.futuur.com/"

/-- The fixed User-Agent value. -/
def userAgentValue : String :=
  "Mozilla/5.0 (compatible; MyServerBot/1.0; +https://example.com)"

/-- The final URL: the endpoint resolved against the base plus the serialized
query string (empty query leaves the URL bare). -/
def requestUrl (endpoint : String) (params : List (String × ParamVal)) : String :=
  baseUrl ++ endpoint ++
    (if (urlQueryPairs params).isEmpty then ""
     else "?" ++ formEncodePairs (urlQueryPairs params))

/-- The signature payload: the collapsed query pairs for GET, the body's
top-level fields (or nothing) for POST/PATCH. -/
def sigPayloadOf (method : HttpMethod) (params : List (String × ParamVal))
    (body : Option (List (String × JSScalar))) : List (String × JSScalar) :=
  match method with
  | .GET => getSignaturePayload params
  | _ => body.getD []

/-- Headers after the Content-Type step: POST/PATCH add
`Content-Type: application/json`. -/
def contentHeaders (method : HttpMethod) (hs : List (String × String)) :
    List (String × String) :=
  match method with
  | .GET => hs
  | _ => hs ++ [("Content-Type", "application/json")]

/-- The transmitted body: `JSON.stringify(body)` for POST/PATCH with a body. -/
def bodyStrOf (method : HttpMethod) (body : Option (List (String × JSScalar))) :
    Option String :=
  match method, body with
  | .GET, _ => none
  | _, none => none
  | _, some b => some (jsonStringify b)

/-- Request construction of `fetchFromFutuur` up to the point the HTTP request
is fired: resolve the URL against the base, append the query pairs, choose the
signature payload, attach auth headers for every non-public endpoint, set
`Content-Type: application/json` for POST/PATCH, and serialize the body.
Fails (before any request exists) when auth headers cannot be built. -/
def fetchBuild (endpoint : String) (params : List (String × ParamVal))
    (method : HttpMethod) (body : Option (List (String × JSScalar))) (w : World) :
    Except String BuiltRequest × World :=
  if isPublicEndpoint endpoint then
    (.ok (BuiltRequest.mk (requestUrl endpoint params)
      (contentHeaders method [("User-Agent", userAgentValue)]) (bodyStrOf method body)), w)
  else
    match buildAuthHeadersW (sigPayloadOf method params body) w with
    | (.error e, w') => (.error e, w')
    | (.ok ah, w') =>
      (.ok (BuiltRequest.mk (requestUrl endpoint params)
        (contentHeaders method
          [("User-Agent", userAgentValue), ("Key", ah.Key), ("Timestamp", ah.Timestamp),
           ("HMAC", ah.HMAC)])
        (bodyStrOf method body)), w')

/-- The part of an HTTP response the pipeline inspects. -/
structure HttpResponse where
  ok : Bool
  status : Nat
  statusText : String
  bodyJson : Option String
deriving DecidableEq

/-- The `errorDetails` object thrown on a non-2xx response: status, status
text, final URL, method, and the *names* of the sent headers. -/
structure ApiErrorInfo where
  status : Nat
  statusText : String
  url : String
  method : String
  headerNames : List String
deriving DecidableEq

/-- JSON array of strings. -/
def jsonStrList (l : List String) : String :=
  "[" ++ String.intercalate "," (l.map jsonStr) ++ "]"

/-- `JSON.stringify(errorDetails)`. -/
def renderErrorDetails (e : ApiErrorInfo) : String :=
  "\x7b\"status\":" ++ toString e.status ++ ",\"statusText\":" ++ jsonStr e.statusText ++
    ",\"url\":" ++ jsonStr e.url ++ ",\"method\":" ++ jsonStr e.method ++
    ",\"headers\":" ++ jsonStrList e.headerNames ++ "\x7d"

/-- The thrown error message
`Futuur API (status) for (endpoint): JSON.stringify(errorDetails)`. -/
def renderApiError (endpoint : String) (e : ApiErrorInfo) : String :=
  "Futuur API " ++ toString e.status ++ " for " ++ endpoint ++ ": " ++ renderErrorDetails e

/-- The error data built from a response and the request that was sent. -/
def apiErrorOf (resp : HttpResponse) (req : BuiltRequest) (method : HttpMethod) :
    ApiErrorInfo :=
  { status := resp.status, statusText := resp.statusText, url := req.url,
    method := methodName method, headerNames := req.headers.map Prod.fst }

/-- Transport step of `fetchFromFutuur`: a non-ok response throws the rendered
`ApiError`, an ok response yields the JSON body. -/
def transportResult (endpoint : String) (req : BuiltRequest) (method : HttpMethod)
    (resp : HttpResponse) : Except (ApiErrorInfo × String) (Option String) :=
  if resp.ok then .ok resp.bodyJson
  else .error (apiErrorOf resp req method, renderApiError endpoint (apiErrorOf resp req method))

/-! ## Theorems: order properties of the JavaScript string comparison -/

theorem unitsLe_total : ∀ x y : List Nat, unitsLe x y = true ∨ unitsLe y x = true := by
  intro x
  induction x with
  | nil => intro y; exact Or.inl rfl
  | cons a as ih =>
    intro y
    cases y with
    | nil => exact Or.inr rfl
    | cons b bs =>
      rcases Nat.lt_trichotomy a b with hab | hab | hab
      · exact Or.inl (by simp [unitsLe, hab])
      · subst hab
        rcases ih bs with h | h
        · exact Or.inl (by simp [unitsLe, h])
        · exact Or.inr (by simp [unitsLe, h])
      · exact Or.inr (by simp [unitsLe, hab])

theorem unitsLe_trans :
    ∀ x y z : List Nat, unitsLe x y = true → unitsLe y z = true → unitsLe x z = true := by
  intro x
  induction x with
  | nil => intro y z _ _; rfl
  | cons a as ih =>
    intro y z hxy hyz
    cases y with
    | nil => simp [unitsLe] at hxy
    | cons b bs =>
      cases z with
      | nil => simp [unitsLe] at hyz
      | cons c cs =>
        rcases Nat.lt_trichotomy a b with hab | hab | hab
        · rcases Nat.lt_trichotomy b c with hbc | hbc | hbc
          · simp [unitsLe, Nat.lt_trans hab hbc]
          · subst hbc; simp [unitsLe, hab]
          · simp [unitsLe, Nat.lt_asymm hbc, hbc] at hyz
        · subst hab
          rcases Nat.lt_trichotomy a c with hac | hac | hac
          · simp [unitsLe, hac]
          · subst hac
            simp only [unitsLe, lt_self_iff_false, if_false] at hxy hyz ⊢
            exact ih _ _ hxy hyz
          · simp [unitsLe, Nat.lt_asymm hac, hac] at hyz
        · simp [unitsLe, Nat.lt_asymm hab, hab] at hxy

theorem unitsLe_antisymm :
    ∀ x y : List Nat, unitsLe x y = true → unitsLe y x = true → x = y := by
  intro x
  induction x with
  | nil =>
    intro y _ hyx
    cases y with
    | nil => rfl
    | cons b bs => simp [unitsLe] at hyx
  | cons a as ih =>
    intro y hxy hyx
    cases y with
    | nil => simp [unitsLe] at hxy
    | cons b bs =>
      rcases Nat.lt_trichotomy a b with hab | hab | hab
      · simp [unitsLe, Nat.lt_asymm hab, hab] at hyx
      · subst hab
        simp only [unitsLe, lt_self_iff_false, if_false] at hxy hyx
        rw [ih bs hxy hyx]
      · simp [unitsLe, Nat.lt_asymm hab, hab] at hxy

/-- Validity range of a Lean character, in the form used below: the scalar
values exclude the surrogate range. -/
theorem charValidRange (c : Char) :
    c.toNat < 55296 ∨ (57343 < c.toNat ∧ c.toNat < 1114112) := c.valid

theorem charUnits_shape (c : Char) :
    (c.toNat < 65536 ∧ charUnits c = [c.toNat] ∧ (c.toNat < 55296 ∨ 57344 ≤ c.toNat)) ∨
    (65536 ≤ c.toNat ∧
      charUnits c = [55296 + (c.toNat - 65536) / 1024, 56320 + (c.toNat - 65536) % 1024] ∧
      (c.toNat - 65536) / 1024 < 1024 ∧ (c.toNat - 65536) % 1024 < 1024) := by
  have hv := charValidRange c
  by_cases h : c.toNat < 65536
  · exact Or.inl ⟨h, by simp [charUnits, h], by omega⟩
  · refine Or.inr ⟨by omega, by simp [charUnits, h], ?_, ?_⟩
    · have h1 : c.toNat - 65536 < 1048576 := by omega
      omega
    · exact Nat.mod_lt _ (by omega)

theorem char_toNat_inj {a b : Char} (h : a.toNat = b.toNat) : a = b :=
  Char.ext (UInt32.ext h)

theorem charUnits_append_inj (a b : Char) (x y : List Nat)
    (h : charUnits a ++ x = charUnits b ++ y) : a = b ∧ x = y := by
  rcases charUnits_shape a with ⟨ha1, ha2, ha3⟩ | ⟨ha1, ha2, ⟨ha3, ha4⟩⟩ <;>
    rcases charUnits_shape b with ⟨hb1, hb2, hb3⟩ | ⟨hb1, hb2, ⟨hb3, hb4⟩⟩ <;>
      rw [ha2, hb2] at h <;> simp only [List.cons_append, List.nil_append,
        List.cons.injEq] at h
  · exact ⟨char_toNat_inj h.1, h.2⟩
  · exfalso; omega
  · exfalso; omega
  · obtain ⟨h1, h2, h3⟩ := h
    have hqa := Nat.div_add_mod (a.toNat - 65536) 1024
    have hqb := Nat.div_add_mod (b.toNat - 65536) 1024
    have : a.toNat = b.toNat := by omega
    exact ⟨char_toNat_inj this, h3⟩

theorem unitsOfChars_cons (c : Char) (l : List Char) :
    unitsOfChars (c :: l) = charUnits c ++ unitsOfChars l := rfl

theorem unitsOfChars_inj : ∀ l m : List Char, unitsOfChars l = unitsOfChars m → l = m := by
  intro l
  induction l with
  | nil =>
    intro m h
    cases m with
    | nil => rfl
    | cons b bs =>
      exfalso
      rw [unitsOfChars_cons] at h
      rcases charUnits_shape b with ⟨_, he, _⟩ | ⟨_, he, _⟩ <;> rw [he] at h <;>
        simp [unitsOfChars] at h
  | cons a as ih =>
    intro m h
    cases m with
    | nil =>
      exfalso
      rw [unitsOfChars_cons] at h
      rcases charUnits_shape a with ⟨_, he, _⟩ | ⟨_, he, _⟩ <;> rw [he] at h <;>
        simp [unitsOfChars] at h
    | cons b bs =>
      rw [unitsOfChars_cons, unitsOfChars_cons] at h
      obtain ⟨hab, ht⟩ := charUnits_append_inj a b _ _ h
      rw [hab, ih bs ht]

theorem utf16Units_inj {s t : String} (h : utf16Units s = utf16Units t) : s = t :=
  String.ext (unitsOfChars_inj _ _ h)

theorem jsStrLe_total (a b : String) : jsStrLe a b ∨ jsStrLe b a := unitsLe_total _ _

theorem jsStrLe_trans {a b c : String} (h1 : jsStrLe a b) (h2 : jsStrLe b c) : jsStrLe a c :=
  unitsLe_trans _ _ _ h1 h2

theorem jsStrLe_antisymm {a b : String} (h1 : jsStrLe a b) (h2 : jsStrLe b a) : a = b :=
  utf16Units_inj (unitsLe_antisymm _ _ h1 h2)

theorem idxKeyLe_total (a b : String) : idxKeyLe a b ∨ idxKeyLe b a := by
  rcases Nat.lt_trichotomy (natOfKey a) (natOfKey b) with h | h | h
  · exact Or.inl (Or.inl h)
  · rcases jsStrLe_total a b with hs | hs
    · exact Or.inl (Or.inr ⟨h, hs⟩)
    · exact Or.inr (Or.inr ⟨h.symm, hs⟩)
  · exact Or.inr (Or.inl h)

theorem idxKeyLe_trans {a b c : String} (h1 : idxKeyLe a b) (h2 : idxKeyLe b c) :
    idxKeyLe a c := by
  rcases h1 with h1 | ⟨h1e, h1s⟩ <;> rcases h2 with h2 | ⟨h2e, h2s⟩
  · exact Or.inl (Nat.lt_trans h1 h2)
  · exact Or.inl (h2e ▸ h1)
  · exact Or.inl (h1e ▸ h2)
  · exact Or.inr ⟨h1e.trans h2e, jsStrLe_trans h1s h2s⟩

theorem idxKeyLe_antisymm {a b : String} (h1 : idxKeyLe a b) (h2 : idxKeyLe b a) : a = b := by
  rcases h1 with h1 | ⟨h1e, h1s⟩ <;> rcases h2 with h2 | ⟨h2e, h2s⟩
  · omega
  · omega
  · omega
  · exact jsStrLe_antisymm h1s h2s

/-- The code-unit sort of a key list is determined by the key multiset. -/
theorem sortJs_eq_of_perm {l₁ l₂ : List String} (h : l₁.Perm l₂) :
    List.insertionSort jsStrLe l₁ = List.insertionSort jsStrLe l₂ := by
  haveI : IsTotal String jsStrLe := ⟨jsStrLe_total⟩
  haveI : IsTrans String jsStrLe := ⟨fun _ _ _ => jsStrLe_trans⟩
  haveI : IsAntisymm String jsStrLe := ⟨fun _ _ => jsStrLe_antisymm⟩
  exact List.eq_of_perm_of_sorted
    ((List.perm_insertionSort _ _).trans (h.trans (List.perm_insertionSort _ _).symm))
    (List.sorted_insertionSort _ _) (List.sorted_insertionSort _ _)

/-- The numeric sort of an index-key list is determined by the key multiset. -/
theorem idxSort_eq_of_perm {l₁ l₂ : List String} (h : l₁.Perm l₂) :
    jsIndexSort l₁ = jsIndexSort l₂ := by
  haveI : IsTotal String idxKeyLe := ⟨idxKeyLe_total⟩
  haveI : IsTrans String idxKeyLe := ⟨fun _ _ _ => idxKeyLe_trans⟩
  haveI : IsAntisymm String idxKeyLe := ⟨fun _ _ => idxKeyLe_antisymm⟩
  exact List.eq_of_perm_of_sorted
    ((List.perm_insertionSort _ _).trans (h.trans (List.perm_insertionSort _ _).symm))
    (List.sorted_insertionSort _ _) (List.sorted_insertionSort _ _)

/-! ## Theorems: association-list lookups and signer congruence -/

theorem lookupFirst_eq_none_iff {α : Type} (k : String) (l : List (String × α)) :
    lookupFirst k l = none ↔ k ∉ l.map Prod.fst := by
  induction l with
  | nil => simp [lookupFirst]
  | cons kv rest ih =>
    obtain ⟨k', v⟩ := kv
    by_cases h : k' = k
    · subst h; simp [lookupFirst]
    · simp [lookupFirst, h, ih, Ne.symm h]

theorem lookupFirst_isSome_of_mem {α : Type} {k : String} {l : List (String × α)}
    (h : k ∈ l.map Prod.fst) : (lookupFirst k l).isSome := by
  cases hl : lookupFirst k l with
  | none => exact absurd ((lookupFirst_eq_none_iff k l).mp hl) (by simp [h])
  | some v => rfl

theorem lookupFirst_append_some {α : Type} {k : String} {l₁ : List (String × α)}
    (l₂ : List (String × α)) {v : α} (h : lookupFirst k l₁ = some v) :
    lookupFirst k (l₁ ++ l₂) = some v := by
  induction l₁ with
  | nil => simp [lookupFirst] at h
  | cons kv rest ih =>
    obtain ⟨k', v'⟩ := kv
    by_cases hk : k' = k
    · subst hk
      simp [lookupFirst] at h ⊢
      exact h
    · simp [lookupFirst, hk] at h ⊢
      exact ih h

theorem lookupFirst_append_none {α : Type} {k : String} {l₁ : List (String × α)}
    (l₂ : List (String × α)) (h : lookupFirst k l₁ = none) :
    lookupFirst k (l₁ ++ l₂) = lookupFirst k l₂ := by
  induction l₁ with
  | nil => rfl
  | cons kv rest ih =>
    obtain ⟨k', v'⟩ := kv
    by_cases hk : k' = k
    · subst hk; simp [lookupFirst] at h
    · simp [lookupFirst, hk] at h ⊢
      exact ih h

theorem nodupKeys_val_eq {α : Type} {l : List (String × α)} (nd : (l.map Prod.fst).Nodup)
    {k : String} {a b : α} (ha : (k, a) ∈ l) (hb : (k, b) ∈ l) : a = b := by
  induction l with
  | nil => simp at ha
  | cons kv rest ih =>
    simp only [List.map_cons, List.nodup_cons] at nd
    rcases List.mem_cons.mp ha with ha1 | ha1 <;> rcases List.mem_cons.mp hb with hb1 | hb1
    · exact congrArg Prod.snd (ha1.trans hb1.symm)
    · subst ha1
      exact absurd (List.mem_map_of_mem Prod.fst hb1) nd.1
    · subst hb1
      exact absurd (List.mem_map_of_mem Prod.fst ha1) nd.1
    · exact ih nd.2 ha1 hb1

theorem lookupFirst_perm {α : Type} {l₁ l₂ : List (String × α)}
    (nd : (l₁.map Prod.fst).Nodup) (h : l₁.Perm l₂) (k : String) :
    lookupFirst k l₁ = lookupFirst k l₂ := by
  revert nd
  induction h with
  | nil => intro _; rfl
  | cons x _ ih =>
    intro nd
    obtain ⟨k', v⟩ := x
    by_cases hk : k' = k
    · subst hk; simp [lookupFirst]
    · simp only [List.map_cons, List.nodup_cons] at nd
      simp [lookupFirst, hk, ih nd.2]
  | swap x y l =>
    intro nd
    obtain ⟨kx, vx⟩ := x
    obtain ⟨ky, vy⟩ := y
    have hne : ky ≠ kx := by
      simp only [List.map_cons, List.nodup_cons, List.mem_cons] at nd
      intro hc
      exact nd.1 (Or.inl hc)
    by_cases hx : kx = k <;> by_cases hy : ky = k
    · exact absurd (hy.trans hx.symm) hne
    · simp [lookupFirst, hx, hy]
    · simp [lookupFirst, hx, hy]
    · simp [lookupFirst, hx, hy]
  | trans h12 h23 ih12 ih23 =>
    intro nd
    have nd2 := (h12.map Prod.fst).nodup nd
    rw [ih12 nd, ih23 nd2]

theorem lookupFirst_filter {α : Type} {k : String} (pred : String × α → Bool)
    (l : List (String × α)) (hp : ∀ v : α, pred (k, v) = true) :
    lookupFirst k (l.filter pred) = lookupFirst k l := by
  induction l with
  | nil => rfl
  | cons kv rest ih =>
    obtain ⟨k', v⟩ := kv
    by_cases hk : k' = k
    · subst hk
      rw [List.filter_cons_of_pos (hp v)]
      simp [lookupFirst]
    · cases hpred : pred (k', v) with
      | false => rw [List.filter_cons_of_neg (by simp [hpred])]; simp [lookupFirst, hk, ih]
      | true => rw [List.filter_cons_of_pos hpred]; simp [lookupFirst, hk, ih]

theorem signKeys_perm {p₁ p₂ : List (String × JSScalar)} (h : p₁.Perm p₂) :
    (signKeys p₁).Perm (signKeys p₂) :=
  ((h.map Prod.fst).append_right ["Key", "Timestamp"]).dedup

theorem canonicalKeys_congr {p₁ p₂ : List (String × JSScalar)}
    (h : (signKeys p₁).Perm (signKeys p₂)) : canonicalKeys p₁ = canonicalKeys p₂ := by
  unfold canonicalKeys
  rw [sortJs_eq_of_perm h]

theorem signValue_congr {p₁ p₂ : List (String × JSScalar)} (c : Credentials) (t : Nat)
    (h : ∀ k, k ≠ "Key" → k ≠ "Timestamp" → lookupFirst k p₁ = lookupFirst k p₂) (k : String) :
    signValue p₁ c t k = signValue p₂ c t k := by
  unfold signValue
  by_cases h1 : k = "Key"
  · simp [h1]
  · by_cases h2 : k = "Timestamp"
    · simp [h1, h2]
    · simp [h1, h2, h k h1 h2]

theorem buildAuthHeadersPure_congr {p₁ p₂ : List (String × JSScalar)} (c : Credentials)
    (t : Nat) (hkeys : canonicalKeys p₁ = canonicalKeys p₂)
    (hval : ∀ k, signValue p₁ c t k = signValue p₂ c t k) :
    buildAuthHeadersPure p₁ c t = buildAuthHeadersPure p₂ c t := by
  have hpairs : canonicalPairs p₁ c t = canonicalPairs p₂ c t := by
    unfold canonicalPairs
    rw [hkeys]
    exact List.map_congr_left (fun k _ => by rw [hval k])
  unfold buildAuthHeadersPure paramStringOf
  rw [hpairs]

/-! ## Theorems: digest shape (always 128 lowercase hex characters) -/

theorem wordBytesBE_length (w : Nat) : (wordBytesBE w).length = 8 := rfl

theorem stateBytes_length (s : Sha2State) : (stateBytes s).length = 64 := by
  simp [stateBytes, List.length_append, wordBytesBE_length]

theorem sha512_length (msg : List Nat) : (sha512 msg).length = 64 :=
  stateBytes_length _

theorem hmacSha512_length (key msg : List Nat) : (hmacSha512 key msg).length = 64 :=
  sha512_length _

theorem bytesToHex_data (bs : List Nat) :
    (bytesToHex bs).data =
      bs.foldr (fun b acc => hexDigitLower (b / 16 % 16) :: hexDigitLower (b % 16) :: acc) [] :=
  rfl

theorem bytesToHex_length (bs : List Nat) : (bytesToHex bs).length = 2 * bs.length := by
  show (bytesToHex bs).data.length = 2 * bs.length
  rw [bytesToHex_data]
  induction bs with
  | nil => rfl
  | cons b rest ih =>
    simp only [List.foldr_cons, List.length_cons, ih]
    omega

theorem hexDigitLower_mem_of_lt {n : Nat} (h : n < 16) :
    hexDigitLower n ∈ "0123456789abcdef".data := by
  interval_cases n <;> decide

theorem bytesToHex_chars (bs : List Nat) :
    ∀ c ∈ (bytesToHex bs).data, c ∈ "0123456789abcdef".data := by
  rw [bytesToHex_data]
  induction bs with
  | nil => intro c hc; simp at hc
  | cons b rest ih =>
    intro c hc
    simp only [List.foldr_cons, List.mem_cons] at hc
    rcases hc with hc | hc | hc
    · exact hc ▸ hexDigitLower_mem_of_lt (Nat.mod_lt _ (by omega))
    · exact hc ▸ hexDigitLower_mem_of_lt (Nat.mod_lt _ (by omega))
    · exact ih c hc

theorem hmacSha512Hex_length (key msg : List Nat) : (hmacSha512Hex key msg).length = 128 := by
  unfold hmacSha512Hex
  rw [bytesToHex_length, hmacSha512_length]

theorem hmacSha512Hex_chars (key msg : List Nat) :
    ∀ c ∈ (hmacSha512Hex key msg).data, c ∈ "0123456789abcdef".data :=
  bytesToHex_chars _

/-! ## Theorems: `dotenv.config` is idempotent and `buildAuthHeaders` is stateless -/

theorem dotenvConfig_envFile (w : World) : (dotenvConfig w).envFile = w.envFile := rfl

theorem dotenvConfig_nowSec (w : World) : (dotenvConfig w).nowSec = w.nowSec := rfl

theorem dotenvConfig_idem (w : World) : dotenvConfig (dotenvConfig w) = dotenvConfig w := by
  have hnil : (dotenvConfig w).envFile.filter
      (fun kv => (lookupFirst kv.1 (dotenvConfig w).procEnv).isNone) = [] := by
    rw [List.filter_eq_nil_iff]
    intro kv hkv
    rw [dotenvConfig_envFile] at hkv
    cases hpe : lookupFirst kv.1 w.procEnv with
    | some v =>
      have hs : lookupFirst kv.1 (dotenvConfig w).procEnv = some v :=
        lookupFirst_append_some _ hpe
      simp [hs]
    | none =>
      have hmem : kv ∈ w.envFile.filter (fun kv => (lookupFirst kv.1 w.procEnv).isNone) :=
        List.mem_filter.mpr ⟨hkv, by simp [hpe]⟩
      have hrw : lookupFirst kv.1 (dotenvConfig w).procEnv =
          lookupFirst kv.1
            (w.envFile.filter (fun kv => (lookupFirst kv.1 w.procEnv).isNone)) :=
        lookupFirst_append_none _ hpe
      have hsome := lookupFirst_isSome_of_mem (List.mem_map_of_mem Prod.fst hmem)
      rw [hrw]
      cases hx : lookupFirst kv.1
          (w.envFile.filter (fun kv => (lookupFirst kv.1 w.procEnv).isNone)) with
      | none => rw [hx] at hsome; simp at hsome
      | some v => simp
  show ({ dotenvConfig w with
      procEnv := (dotenvConfig w).procEnv ++ (dotenvConfig w).envFile.filter
        (fun kv => (lookupFirst kv.1 (dotenvConfig w).procEnv).isNone) } : World) =
    dotenvConfig w
  rw [hnil, List.append_nil]

theorem buildAuthHeadersW_state (p : List (String × JSScalar)) (w : World) :
    (buildAuthHeadersW p w).2 = dotenvConfig w := by
  simp only [buildAuthHeadersW]
  split <;> rfl

theorem buildAuthHeadersW_stable (p : List (String × JSScalar)) (w : World) :
    buildAuthHeadersW p (buildAuthHeadersW p w).2 = buildAuthHeadersW p w := by
  rw [buildAuthHeadersW_state]
  unfold buildAuthHeadersW
  rw [dotenvConfig_idem]

/-! ## Theorems: `Object.fromEntries` collapse and query-pair structure -/

theorem getLast?_cons_eq {α : Type} (a : α) (l : List α) :
    (a :: l).getLast? = some (l.getLastD a) := by
  induction l generalizing a with
  | nil => rfl
  | cons b t ih =>
    rw [show (a :: b :: t).getLast? = (b :: t).getLast? from rfl, ih b, List.getLastD_cons]

theorem filter_ne_filter_eq {α : Type} {k k0 : String} (hk : k0 ≠ k)
    (l : List (String × α)) :
    (l.filter (fun kv => kv.1 != k0)).filter (fun kv => kv.1 == k) =
      l.filter (fun kv => kv.1 == k) := by
  rw [List.filter_filter]
  apply List.filter_congr
  intro kv _
  by_cases h : kv.1 = k
  · simp [h, Ne.symm hk]
  · simp [h]

theorem lookupFirst_fromEntriesAux (k : String) :
    ∀ (fuel : Nat) (l : List (String × String)), l.length ≤ fuel →
      lookupFirst k (fromEntriesAux fuel l) =
        ((l.filter (fun kv => kv.1 == k)).map Prod.snd).getLast? := by
  intro fuel
  induction fuel with
  | zero =>
    intro l hl
    cases l with
    | nil => rfl
    | cons kv rest => simp at hl
  | succ n ih =>
    intro l hl
    cases l with
    | nil => rfl
    | cons kv rest =>
      obtain ⟨k0, v0⟩ := kv
      simp only [List.length_cons, Nat.succ_le_succ_iff] at hl
      by_cases hk : k0 = k
      · subst hk
        simp only [fromEntriesAux, lookupFirst]
        rw [List.filter_cons_of_pos (by simp), List.map_cons, getLast?_cons_eq]
        simp
      · simp only [fromEntriesAux, lookupFirst, if_neg hk]
        rw [ih _ (le_trans (List.length_filter_le _ _) hl), filter_ne_filter_eq hk,
          List.filter_cons_of_neg (by simp [hk])]

theorem lookupFirst_fromEntriesLast (k : String) (l : List (String × String)) :
    lookupFirst k (fromEntriesLast l) =
      ((l.filter (fun kv => kv.1 == k)).map Prod.snd).getLast? :=
  lookupFirst_fromEntriesAux k l.length l (Nat.le_refl _)

theorem fromEntriesLast_keys (k : String) (l : List (String × String)) :
    k ∈ (fromEntriesLast l).map Prod.fst ↔ k ∈ l.map Prod.fst := by
  rw [← Decidable.not_iff_not, ← lookupFirst_eq_none_iff, lookupFirst_fromEntriesLast,
    ← lookupFirst_eq_none_iff k l]
  rw [List.getLast?_eq_none_iff, List.map_eq_nil_iff, List.filter_eq_nil_iff,
    lookupFirst_eq_none_iff]
  simp only [beq_iff_eq, List.mem_map]
  constructor
  · intro h hc
    obtain ⟨kv, hkv, hfst⟩ := hc
    exact h kv hkv hfst
  · intro h kv hkv hfst
    exact h ⟨kv, hkv, hfst⟩

theorem lookupFirst_map_val {α β : Type} (k : String) (f : α → β) (l : List (String × α)) :
    lookupFirst k (l.map (fun kv => (kv.1, f kv.2))) = Option.map f (lookupFirst k l) := by
  induction l with
  | nil => rfl
  | cons kv rest ih =>
    obtain ⟨k', v⟩ := kv
    by_cases hk : k' = k
    · subst hk; simp [lookupFirst]
    · simp [lookupFirst, hk, ih]

theorem expandParam_keys (kv : String × ParamVal) : ∀ pr ∈ expandParam kv, pr.1 = kv.1 := by
  intro pr hpr
  cases hv : kv.2 with
  | undef => simp [expandParam, hv] at hpr
  | scalar v =>
    simp [expandParam, hv] at hpr
    rw [hpr]
  | arr vs =>
    simp only [expandParam, hv, List.mem_map] at hpr
    obtain ⟨v, _, hpr⟩ := hpr
    rw [← hpr]

theorem jsEntriesOrder_perm {α : Type} (l : List (String × α)) : (jsEntriesOrder l).Perm l :=
  ((List.perm_insertionSort _ _).append_right _).trans (List.filter_append_perm _ l)

theorem flatMap_filter_nil {k : String} {l : List (String × ParamVal)}
    (h : k ∉ l.map Prod.fst) :
    (l.flatMap expandParam).filter (fun pr => pr.1 == k) = [] := by
  induction l with
  | nil => rfl
  | cons kv rest ih =>
    simp only [List.map_cons, List.mem_cons] at h
    push_neg at h
    rw [List.flatMap_cons, List.filter_append, ih h.2, List.append_nil,
      List.filter_eq_nil_iff]
    intro pr hpr
    simp only [beq_iff_eq]
    rw [expandParam_keys kv pr hpr]
    exact Ne.symm h.1

theorem flatMap_filter_single {k : String} {v : JSScalar} {l : List (String × ParamVal)}
    (nd : (l.map Prod.fst).Nodup) (hm : (k, ParamVal.scalar v) ∈ l) :
    (l.flatMap expandParam).filter (fun pr => pr.1 == k) = [(k, jsToString v)] := by
  induction l with
  | nil => simp at hm
  | cons kv rest ih =>
    simp only [List.map_cons, List.nodup_cons] at nd
    rcases List.mem_cons.mp hm with hm1 | hm1
    · subst hm1
      rw [List.flatMap_cons, List.filter_append,
        flatMap_filter_nil (by exact nd.1), List.append_nil]
      simp [expandParam]
    · have hkne : kv.1 ≠ k := by
        intro hc
        exact nd.1 (hc ▸ List.mem_map_of_mem Prod.fst hm1)
      rw [List.flatMap_cons, List.filter_append, ih nd.2 hm1]
      have hnil : (expandParam kv).filter (fun pr => pr.1 == k) = [] := by
        rw [List.filter_eq_nil_iff]
        intro pr hpr
        simp only [beq_iff_eq]
        rw [expandParam_keys kv pr hpr]
        exact hkne
      rw [hnil, List.nil_append]

/-! ## Claim theorems -/

/-- C4: classification returns Public exactly when the endpoint starts with one
of the configured public roots or contains `"/" + root` as a substring; with
roots `events` / `categories`, the paths `categories/5/` and `events/` are
Public while `bets/` and `wagers/1/` are Authenticated. -/
theorem futuur_c4_classification (endpoint : String) :
    (classifyEndpoint endpoint = EndpointClass.publicAccess ↔
      ∃ p ∈ publicPrefixes,
        strStartsWith endpoint p = true ∨ strContains endpoint ("/" ++ p) = true) ∧
    classifyEndpoint "categories/5/" = EndpointClass.publicAccess ∧
    classifyEndpoint "events/" = EndpointClass.publicAccess ∧
    classifyEndpoint "bets/" = EndpointClass.authenticated ∧
    classifyEndpoint "wagers/1/" = EndpointClass.authenticated := by
  refine ⟨?_, by decide, by decide, by decide, by decide⟩
  unfold classifyEndpoint isPublicEndpoint
  by_cases h : publicPrefixes.any
      (fun p => strStartsWith endpoint p || strContains endpoint ("/" ++ p)) = true
  · rw [if_pos h]
    simp only [List.any_eq_true, Bool.or_eq_true] at h
    exact iff_of_true rfl h
  · rw [if_neg h]
    refine iff_of_false (by simp) ?_
    intro hx
    apply h
    simp only [List.any_eq_true, Bool.or_eq_true]
    exact hx

/-- C7: a non-2xx response produces an error carrying exactly the status code,
status text, final URL, method, and the *names* of the sent headers; the error
(both its data and its rendered message) is unchanged when header values are
replaced while the header names are kept, so no header value can occur in it. -/
theorem futuur_c7_error_no_header_values (endpoint : String) (req : BuiltRequest)
    (method : HttpMethod) (resp : HttpResponse) (hok : resp.ok = false) :
    transportResult endpoint req method resp =
      Except.error (apiErrorOf resp req method,
        renderApiError endpoint (apiErrorOf resp req method)) ∧
    (apiErrorOf resp req method).status = resp.status ∧
    (apiErrorOf resp req method).statusText = resp.statusText ∧
    (apiErrorOf resp req method).url = req.url ∧
    (apiErrorOf resp req method).method = methodName method ∧
    (apiErrorOf resp req method).headerNames = req.headers.map Prod.fst ∧
    ∀ hs2 : List (String × String), hs2.map Prod.fst = req.headers.map Prod.fst →
      apiErrorOf resp { req with headers := hs2 } method = apiErrorOf resp req method ∧
      renderApiError endpoint (apiErrorOf resp { req with headers := hs2 } method) =
        renderApiError endpoint (apiErrorOf resp req method) := by
  refine ⟨?_, rfl, rfl, rfl, rfl, rfl, ?_⟩
  · unfold transportResult
    rw [if_neg (by simp [hok])]
  · intro hs2 hmap
    have he : apiErrorOf resp { req with headers := hs2 } method =
        apiErrorOf resp req method := by
      simp [apiErrorOf, hmap]
    exact ⟨he, by rw [he]⟩

theorem futuur_c7_witness :
    (HttpResponse.mk false 403 "Forbidden" none).ok = false ∧
    transportResult "me"
        (BuiltRequest.mk "https://api.futuur.com/me"
          [("User-Agent", userAgentValue), ("Key", "PK1"),
           ("Timestamp", "1700000000"), ("HMAC", "deadbeef")] none)
        HttpMethod.GET (HttpResponse.mk false 403 "Forbidden" none) =
      Except.error
        (apiErrorOf (HttpResponse.mk false 403 "Forbidden" none)
          (BuiltRequest.mk "https://api.futuur.com/me"
            [("User-Agent", userAgentValue), ("Key", "PK1"),
             ("Timestamp", "1700000000"), ("HMAC", "deadbeef")] none) HttpMethod.GET,
         renderApiError "me"
          (apiErrorOf (HttpResponse.mk false 403 "Forbidden" none)
            (BuiltRequest.mk "https://api.futuur.com/me"
              [("User-Agent", userAgentValue), ("Key", "PK1"),
               ("Timestamp", "1700000000"), ("HMAC", "deadbeef")] none) HttpMethod.GET)) :=
  ⟨rfl, (futuur_c7_error_no_header_values "me" _ HttpMethod.GET _ rfl).1⟩

/-- C9: for a fixed payload, credentials and timestamp the signer output is
determined (pure function of its arguments); classification is likewise pure;
the stateful signer touches no state other than the one-shot `dotenv` merge,
which is idempotent, so a second call with the same inputs (including the same
`now`) returns the same result and leaves the state unchanged. -/
theorem futuur_c9_deterministic_stateless (p : List (String × JSScalar)) (c : Credentials)
    (t : Nat) (e : String) (w : World) :
    buildAuthHeadersPure p c t = buildAuthHeadersPure p c t ∧
    classifyEndpoint e = classifyEndpoint e ∧
    buildAuthHeadersW p (buildAuthHeadersW p w).2 = buildAuthHeadersW p w ∧
    (buildAuthHeadersW p w).2 = dotenvConfig w ∧
    dotenvConfig (dotenvConfig w) = dotenvConfig w :=
  ⟨rfl, rfl, buildAuthHeadersW_stable p w, buildAuthHeadersW_state p w, dotenvConfig_idem w⟩

theorem buildAuthHeadersW_of_falsy (p : List (String × JSScalar)) (w : World)
    (hcond : (envFalsy (lookupFirst "FUTUUR_PUBLIC_KEY" (dotenvConfig w).procEnv) ||
      envFalsy (lookupFirst "FUTUUR_PRIVATE_KEY" (dotenvConfig w).procEnv)) = true) :
    buildAuthHeadersW p w =
      (Except.error ("Futuur keys missing in env: key=" ++
        jsBoolStr (!envFalsy (lookupFirst "FUTUUR_PUBLIC_KEY" (dotenvConfig w).procEnv)) ++
        ", secret=" ++
        jsBoolStr (!envFalsy (lookupFirst "FUTUUR_PRIVATE_KEY" (dotenvConfig w).procEnv))),
       dotenvConfig w) := by
  simp only [buildAuthHeadersW]
  rw [if_pos hcond]

/-- C3: a call to a non-public endpoint while the public or private key is
absent or empty makes the pipeline fail with the `ConfigError` before any
request is assembled: the result is the error, never a built request (and in
particular never an unsigned request). -/
theorem futuur_c3_missing_credentials_fatal (endpoint : String)
    (params : List (String × ParamVal)) (method : HttpMethod)
    (body : Option (List (String × JSScalar))) (w : World)
    (hauth : isPublicEndpoint endpoint = false)
    (hmiss : envFalsy (lookupFirst "FUTUUR_PUBLIC_KEY" (dotenvConfig w).procEnv) = true ∨
      envFalsy (lookupFirst "FUTUUR_PRIVATE_KEY" (dotenvConfig w).procEnv) = true) :
    (fetchBuild endpoint params method body w).1 =
      Except.error ("Futuur keys missing in env: key=" ++
        jsBoolStr (!envFalsy (lookupFirst "FUTUUR_PUBLIC_KEY" (dotenvConfig w).procEnv)) ++
        ", secret=" ++
        jsBoolStr (!envFalsy (lookupFirst "FUTUUR_PRIVATE_KEY" (dotenvConfig w).procEnv))) ∧
    ∀ req : BuiltRequest, (fetchBuild endpoint params method body w).1 ≠ Except.ok req := by
  have hcond : (envFalsy (lookupFirst "FUTUUR_PUBLIC_KEY" (dotenvConfig w).procEnv) ||
      envFalsy (lookupFirst "FUTUUR_PRIVATE_KEY" (dotenvConfig w).procEnv)) = true := by
    rcases hmiss with h | h <;> simp [h]
  have hmain : (fetchBuild endpoint params method body w).1 =
      Except.error ("Futuur keys missing in env: key=" ++
        jsBoolStr (!envFalsy (lookupFirst "FUTUUR_PUBLIC_KEY" (dotenvConfig w).procEnv)) ++
        ", secret=" ++
        jsBoolStr (!envFalsy (lookupFirst "FUTUUR_PRIVATE_KEY" (dotenvConfig w).procEnv))) := by
    have hbe := buildAuthHeadersW_of_falsy (sigPayloadOf method params body) w hcond
    unfold fetchBuild
    rw [if_neg (by simp [hauth]), hbe]
  refine ⟨hmain, fun req hreq => ?_⟩
  rw [hmain] at hreq
  exact Except.noConfusion hreq

theorem futuur_c3_witness :
    isPublicEndpoint "bets/" = false ∧
    (envFalsy (lookupFirst "FUTUUR_PUBLIC_KEY" (dotenvConfig (World.mk [] [] 0)).procEnv) = true ∨
     envFalsy (lookupFirst "FUTUUR_PRIVATE_KEY" (dotenvConfig (World.mk [] [] 0)).procEnv) = true) ∧
    ∀ req : BuiltRequest,
      (fetchBuild "bets/" [] HttpMethod.GET none (World.mk [] [] 0)).1 ≠ Except.ok req :=
  ⟨by decide, by decide,
    (futuur_c3_missing_credentials_fatal "bets/" [] HttpMethod.GET none (World.mk [] [] 0)
      (by decide) (Or.inl (by decide))).2⟩

/-- C6: signing is insertion-order independent. Two payloads that are
permutations of each other (with unique keys) produce identical auth headers,
in particular identical `HMAC` and identical `Timestamp`, because the
canonicalization sorts the key set before serializing. -/
theorem futuur_c6_order_independence (p₁ p₂ : List (String × JSScalar)) (c : Credentials)
    (t : Nat) (nd : (p₁.map Prod.fst).Nodup) (h : p₁.Perm p₂) :
    buildAuthHeadersPure p₁ c t = buildAuthHeadersPure p₂ c t ∧
    (buildAuthHeadersPure p₁ c t).HMAC = (buildAuthHeadersPure p₂ c t).HMAC ∧
    (buildAuthHeadersPure p₁ c t).Timestamp = (buildAuthHeadersPure p₂ c t).Timestamp := by
  have hfull : buildAuthHeadersPure p₁ c t = buildAuthHeadersPure p₂ c t := by
    apply buildAuthHeadersPure_congr
    · exact canonicalKeys_congr (signKeys_perm h)
    · exact signValue_congr c t (fun k' _ _ => lookupFirst_perm nd h k')
  exact ⟨hfull, by rw [hfull], by rw [hfull]⟩

theorem futuur_c6_witness :
    (([("a", JSScalar.num 1), ("b", JSScalar.num 2)].map Prod.fst).Nodup) ∧
    ([("a", JSScalar.num 1), ("b", JSScalar.num 2)]).Perm
      [("b", JSScalar.num 2), ("a", JSScalar.num 1)] ∧
    buildAuthHeadersPure [("a", JSScalar.num 1), ("b", JSScalar.num 2)]
        (Credentials.mk "PK1" "SECRET") 1700000000 =
      buildAuthHeadersPure [("b", JSScalar.num 2), ("a", JSScalar.num 1)]
        (Credentials.mk "PK1" "SECRET") 1700000000 :=
  ⟨by decide, by decide,
    (futuur_c6_order_independence _ _ (Credentials.mk "PK1" "SECRET") 1700000000
      (by decide) (by decide)).1⟩

theorem signKeys_stripAuth_perm (p : List (String × JSScalar)) :
    (signKeys p).Perm (signKeys (stripAuth p)) := by
  apply (List.perm_ext_iff_of_nodup (List.nodup_dedup _) (List.nodup_dedup _)).mpr
  intro a
  simp only [signKeys, List.mem_dedup, List.mem_append, List.mem_map, stripAuth,
    List.mem_filter, List.mem_cons, List.mem_singleton]
  constructor
  · rintro (⟨kv, hkv, hfst⟩ | h)
    · by_cases hsp : a = "Key" ∨ a = "Timestamp"
      · rcases hsp with hsp | hsp
        · exact Or.inr (Or.inl hsp)
        · exact Or.inr (Or.inr (Or.inl hsp))
      · push_neg at hsp
        refine Or.inl ⟨kv, ⟨hkv, ?_⟩, hfst⟩
        rw [hfst]
        simp [hsp.1, hsp.2]
    · exact Or.inr h
  · rintro (⟨kv, ⟨hkv, _⟩, hfst⟩ | h)
    · exact Or.inl ⟨kv, hkv, hfst⟩
    · exact Or.inr h

theorem lookupFirst_stripAuth {k : String} (h1 : k ≠ "Key") (h2 : k ≠ "Timestamp")
    (p : List (String × JSScalar)) : lookupFirst k (stripAuth p) = lookupFirst k p :=
  lookupFirst_filter _ p (fun _ => by simp [h1, h2])

/-- C5: the injected `Key` and `Timestamp` always win over payload entries of
the same name: the signed string (and hence the whole header set) is the one
obtained from the payload with those entries removed, the signing set carries
the configured public key at `Key` and the floored time at `Timestamp`, and in
particular signing `Key: "attacker", outcome: 5` uses the real public key. -/
theorem futuur_c5_injected_values_win (p : List (String × JSScalar)) (c : Credentials)
    (t : Nat) :
    buildAuthHeadersPure p c t = buildAuthHeadersPure (stripAuth p) c t ∧
    signValue p c t "Key" = c.publicKey ∧
    signValue p c t "Timestamp" = toString t ∧
    (buildAuthHeadersPure p c t).Key = c.publicKey ∧
    signValue [("Key", JSScalar.str "attacker"), ("outcome", JSScalar.num 5)] c t "Key" =
      c.publicKey := by
  refine ⟨?_, rfl, rfl, rfl, rfl⟩
  apply buildAuthHeadersPure_congr
  · exact canonicalKeys_congr (signKeys_stripAuth_perm p)
  · exact signValue_congr c t (fun k' hk1 hk2 => (lookupFirst_stripAuth hk1 hk2 p).symm)

theorem canonicalKeys_decomp (p : List (String × JSScalar)) :
    ∃ idxPart strPart : List String,
      canonicalKeys p = idxPart ++ strPart ∧
      (∀ k ∈ idxPart, isArrayIndexKey k = true) ∧
      (∀ k ∈ strPart, isArrayIndexKey k = false) ∧
      List.Sorted (fun a b => natOfKey a ≤ natOfKey b) idxPart ∧
      List.Sorted jsStrLe strPart := by
  haveI : IsTotal String jsStrLe := ⟨jsStrLe_total⟩
  haveI : IsTrans String jsStrLe := ⟨fun _ _ _ => jsStrLe_trans⟩
  haveI : IsTotal String idxKeyLe := ⟨idxKeyLe_total⟩
  haveI : IsTrans String idxKeyLe := ⟨fun _ _ _ => idxKeyLe_trans⟩
  refine ⟨jsIndexSort ((List.insertionSort jsStrLe (signKeys p)).filter isArrayIndexKey),
    (List.insertionSort jsStrLe (signKeys p)).filter (fun k => !isArrayIndexKey k),
    rfl, ?_, ?_, ?_, ?_⟩
  · intro k hk
    have hmem := (List.perm_insertionSort idxKeyLe _).mem_iff.mp hk
    exact (List.mem_filter.mp hmem).2
  · intro k hk
    have hmem := (List.mem_filter.mp hk).2
    simpa using hmem
  · have hs := List.sorted_insertionSort idxKeyLe
      ((List.insertionSort jsStrLe (signKeys p)).filter isArrayIndexKey)
    exact hs.imp (fun hab => by
      rcases hab with h | ⟨h, _⟩
      · exact Nat.le_of_lt h
      · exact Nat.le_of_eq h)
  · exact (List.sorted_insertionSort jsStrLe (signKeys p)).filter _

/-- C2 (amended): the signer serializes the signing set as `key=value` pairs
joined by `&` with form-urlencoding (space encoded as `+`), where array-index
keys (canonical numerals below 2^32 - 1) come first in ascending numeric
order and all remaining keys follow in ascending UTF-16 code-unit
(for ASCII: byte-wise) lexicographic order; the HMAC field is the
HMAC-SHA512, rendered as exactly 128 lowercase hexadecimal characters, of the
UTF-8 bytes of that string keyed by the raw private key. -/
theorem futuur_c2_canonical_serialization (p : List (String × JSScalar)) (c : Credentials)
    (t : Nat) :
    (buildAuthHeadersPure p c t).HMAC =
      hmacSha512Hex (utf8Bytes c.privateKey) (utf8Bytes (paramStringOf p c t)) ∧
    paramStringOf p c t =
      String.intercalate "&" ((canonicalPairs p c t).map encodePair) ∧
    canonicalPairs p c t = (canonicalKeys p).map (fun k => (k, signValue p c t k)) ∧
    (∃ idxPart strPart : List String,
      canonicalKeys p = idxPart ++ strPart ∧
      (∀ k ∈ idxPart, isArrayIndexKey k = true) ∧
      (∀ k ∈ strPart, isArrayIndexKey k = false) ∧
      List.Sorted (fun a b => natOfKey a ≤ natOfKey b) idxPart ∧
      List.Sorted jsStrLe strPart) ∧
    formEncode "a b" = "a+b" ∧
    (buildAuthHeadersPure p c t).HMAC.length = 128 ∧
    ∀ ch ∈ (buildAuthHeadersPure p c t).HMAC.data, ch ∈ "0123456789abcdef".data :=
  ⟨rfl, rfl, rfl, canonicalKeys_decomp p, by decide, hmacSha512Hex_length _ _,
    hmacSha512Hex_chars _ _⟩

/-- C2 counterexample: with payload keys `10` and `2` the serialized pairs are
*not* in ascending lexicographic order of the keys: the receiving JavaScript
object hoists the array-index keys `10`/`2` and orders them numerically, so
the canonical order is `2, 10, Key, Timestamp` and the signed string is
`2=b&10=a&Key=PK&Timestamp=0` (lexicographically `"10" < "2"`). -/
theorem futuur_c2_counterexample :
    canonicalKeys [("10", JSScalar.str "a"), ("2", JSScalar.str "b")] =
      ["2", "10", "Key", "Timestamp"] ∧
    paramStringOf [("10", JSScalar.str "a"), ("2", JSScalar.str "b")]
        (Credentials.mk "PK" "SK") 0 = "2=b&10=a&Key=PK&Timestamp=0" ∧
    ¬ List.Pairwise jsStrLe
        (canonicalKeys [("10", JSScalar.str "a"), ("2", JSScalar.str "b")]) := by
  refine ⟨by decide, by decide, ?_⟩
  intro hp
  rw [show canonicalKeys [("10", JSScalar.str "a"), ("2", JSScalar.str "b")] =
    ["2", "10", "Key", "Timestamp"] from by decide] at hp
  have h12 : jsStrLe "2" "10" := (List.pairwise_cons.mp hp).1 "10" (by simp)
  exact absurd h12 (by decide)

/-- C1 (failing input): for a GET to the authenticated endpoint `markets/`
with params `categories: [1, 2]`, the URL transmits both repeated pairs
(preserving the array order) but the signature payload built by
`Object.fromEntries(url.searchParams.entries())` keeps only the last repeated
value, so the signed key/value set differs from the transmitted one. -/
theorem futuur_c1_array_signature_divergence :
    isPublicEndpoint "markets/" = false ∧
    urlQueryPairs [("categories", ParamVal.arr [JSScalar.num 1, JSScalar.num 2])] =
      [("categories", "1"), ("categories", "2")] ∧
    getSignaturePayload [("categories", ParamVal.arr [JSScalar.num 1, JSScalar.num 2])] =
      [("categories", JSScalar.str "2")] ∧
    ("categories", "1") ∈
      urlQueryPairs [("categories", ParamVal.arr [JSScalar.num 1, JSScalar.num 2])] ∧
    ("categories", "1") ∉
      (getSignaturePayload
        [("categories", ParamVal.arr [JSScalar.num 1, JSScalar.num 2])]).map
        (fun kv => (kv.1, jsToString kv.2)) :=
  ⟨by decide, by decide, by decide, by decide, by decide⟩

theorem buildAuthHeadersW_of_keys (p : List (String × JSScalar)) (w : World)
    {key secret : String}
    (hkey : lookupFirst "FUTUUR_PUBLIC_KEY" (dotenvConfig w).procEnv = some key)
    (hsec : lookupFirst "FUTUUR_PRIVATE_KEY" (dotenvConfig w).procEnv = some secret)
    (hk : key ≠ "") (hs : secret ≠ "") :
    buildAuthHeadersW p w =
      (Except.ok (buildAuthHeadersPure p (Credentials.mk key secret) w.nowSec),
       dotenvConfig w) := by
  simp only [buildAuthHeadersW, hkey, hsec]
  rw [if_neg (by simp [envFalsy, hk, hs])]
  rfl

/-- C8: a POST to an authenticated endpoint carrying a body signs over that
body's top-level fields, transmits `Content-Type: application/json`, and
transmits exactly `JSON.stringify(body)` as the request body. -/
theorem futuur_c8_post_body_signature (endpoint : String)
    (params : List (String × ParamVal)) (b : List (String × JSScalar)) (w : World)
    (key secret : String)
    (hauth : isPublicEndpoint endpoint = false)
    (hkey : lookupFirst "FUTUUR_PUBLIC_KEY" (dotenvConfig w).procEnv = some key)
    (hsec : lookupFirst "FUTUUR_PRIVATE_KEY" (dotenvConfig w).procEnv = some secret)
    (hk : key ≠ "") (hs : secret ≠ "") :
    ∃ req : BuiltRequest,
      (fetchBuild endpoint params HttpMethod.POST (some b) w).1 = Except.ok req ∧
      ("Content-Type", "application/json") ∈ req.headers ∧
      req.bodyStr = some (jsonStringify b) ∧
      ("Key", key) ∈ req.headers ∧
      ("Timestamp", toString w.nowSec) ∈ req.headers ∧
      ("HMAC", hmacSha512Hex (utf8Bytes secret)
        (utf8Bytes (paramStringOf b (Credentials.mk key secret) w.nowSec))) ∈ req.headers := by
  have hbah := buildAuthHeadersW_of_keys (sigPayloadOf HttpMethod.POST params (some b)) w
    hkey hsec hk hs
  refine ⟨BuiltRequest.mk (requestUrl endpoint params)
      (contentHeaders HttpMethod.POST
        [("User-Agent", userAgentValue), ("Key", key), ("Timestamp", toString w.nowSec),
         ("HMAC", hmacSha512Hex (utf8Bytes secret)
           (utf8Bytes (paramStringOf b (Credentials.mk key secret) w.nowSec)))])
      (bodyStrOf HttpMethod.POST (some b)), ?_, ?_, rfl, ?_, ?_, ?_⟩
  · unfold fetchBuild
    rw [if_neg (by simp [hauth]), hbah]
    rfl
  · simp [contentHeaders]
  · simp [contentHeaders]
  · simp [contentHeaders]
  · simp [contentHeaders]

theorem futuur_c8_witness :
    isPublicEndpoint "orders/" = false ∧
    lookupFirst "FUTUUR_PUBLIC_KEY"
      (dotenvConfig (World.mk [] [("FUTUUR_PUBLIC_KEY", "PK1"),
        ("FUTUUR_PRIVATE_KEY", "SECRET")] 1700000000)).procEnv = some "PK1" ∧
    lookupFirst "FUTUUR_PRIVATE_KEY"
      (dotenvConfig (World.mk [] [("FUTUUR_PUBLIC_KEY", "PK1"),
        ("FUTUUR_PRIVATE_KEY", "SECRET")] 1700000000)).procEnv = some "SECRET" ∧
    ("PK1" : String) ≠ "" ∧
    ("SECRET" : String) ≠ "" ∧
    ∃ req : BuiltRequest,
      (fetchBuild "orders/" [] HttpMethod.POST
          (some [("outcome", JSScalar.num 502037), ("amount", JSScalar.num 100)])
          (World.mk [] [("FUTUUR_PUBLIC_KEY", "PK1"), ("FUTUUR_PRIVATE_KEY", "SECRET")]
            1700000000)).1 = Except.ok req ∧
      ("Content-Type", "application/json") ∈ req.headers ∧
      req.bodyStr = some (jsonStringify
        [("outcome", JSScalar.num 502037), ("amount", JSScalar.num 100)]) :=
  ⟨by decide, by decide, by decide, by decide, by decide, by
    obtain ⟨req, h1, h2, h3, _⟩ := futuur_c8_post_body_signature "orders/" []
      [("outcome", JSScalar.num 502037), ("amount", JSScalar.num 100)]
      (World.mk [] [("FUTUUR_PUBLIC_KEY", "PK1"), ("FUTUUR_PRIVATE_KEY", "SECRET")]
        1700000000)
      "PK1" "SECRET" (by decide) (by decide) (by decide) (by decide) (by decide)
    exact ⟨req, h1, h2, h3⟩⟩

/-- C10: an `undefined` query parameter is omitted from both the transmitted
URL query pairs and the GET signature payload, while every defined scalar
parameter (including empty string, zero and false, rendered via `String`)
appears in both. -/
theorem futuur_c10_undefined_omitted (params : List (String × ParamVal)) (k : String)
    (nd : (params.map Prod.fst).Nodup) :
    ((k, ParamVal.undef) ∈ params →
      (∀ v : String, (k, v) ∉ urlQueryPairs params) ∧
      lookupFirst k (getSignaturePayload params) = none) ∧
    (∀ v : JSScalar, (k, ParamVal.scalar v) ∈ params →
      (k, jsToString v) ∈ urlQueryPairs params ∧
      lookupFirst k (getSignaturePayload params) =
        some (JSScalar.str (jsToString v))) := by
  have hperm : (jsEntriesOrder params).Perm params := jsEntriesOrder_perm params
  have ndo : ((jsEntriesOrder params).map Prod.fst).Nodup :=
    (hperm.symm.map Prod.fst).nodup nd
  constructor
  · intro hu
    have hu' : (k, ParamVal.undef) ∈ jsEntriesOrder params := hperm.mem_iff.mpr hu
    have hkeys : ∀ pr ∈ urlQueryPairs params, pr.1 ≠ k := by
      intro pr hpr hc
      obtain ⟨kv, hkv, hin⟩ := List.mem_flatMap.mp hpr
      obtain ⟨k1, v1⟩ := kv
      have hfst : pr.1 = k1 := expandParam_keys (k1, v1) pr hin
      have hk1 : k1 = k := by rw [← hfst, hc]
      subst hk1
      have hval : v1 = ParamVal.undef := nodupKeys_val_eq ndo hkv hu'
      subst hval
      simp [expandParam] at hin
    refine ⟨?_, ?_⟩
    · intro v hv
      exact hkeys (k, v) hv rfl
    · have hfilter : (urlQueryPairs params).filter (fun kv => kv.1 == k) = [] := by
        rw [List.filter_eq_nil_iff]
        intro pr hpr
        simp only [beq_iff_eq]
        exact hkeys pr hpr
      unfold getSignaturePayload
      rw [lookupFirst_map_val, lookupFirst_fromEntriesLast, hfilter]
      rfl
  · intro v hv
    have hv' : (k, ParamVal.scalar v) ∈ jsEntriesOrder params := hperm.mem_iff.mpr hv
    constructor
    · exact List.mem_flatMap.mpr ⟨(k, ParamVal.scalar v), hv', by simp [expandParam]⟩
    · have hfilter := flatMap_filter_single ndo hv'
      unfold getSignaturePayload
      rw [lookupFirst_map_val, lookupFirst_fromEntriesLast]
      unfold urlQueryPairs
      rw [hfilter]
      rfl

theorem futuur_c10_witness :
    (([("a", ParamVal.scalar (JSScalar.str "")), ("b", ParamVal.scalar (JSScalar.num 0)),
       ("c", ParamVal.scalar (JSScalar.bool false)), ("d", ParamVal.undef)].map
        Prod.fst).Nodup) ∧
    lookupFirst "d" (getSignaturePayload
      [("a", ParamVal.scalar (JSScalar.str "")), ("b", ParamVal.scalar (JSScalar.num 0)),
       ("c", ParamVal.scalar (JSScalar.bool false)), ("d", ParamVal.undef)]) = none ∧
    ("a", jsToString (JSScalar.str "")) ∈ urlQueryPairs
      [("a", ParamVal.scalar (JSScalar.str "")), ("b", ParamVal.scalar (JSScalar.num 0)),
       ("c", ParamVal.scalar (JSScalar.bool false)), ("d", ParamVal.undef)] ∧
    lookupFirst "b" (getSignaturePayload
      [("a", ParamVal.scalar (JSScalar.str "")), ("b", ParamVal.scalar (JSScalar.num 0)),
       ("c", ParamVal.scalar (JSScalar.bool false)), ("d", ParamVal.undef)]) =
      some (JSScalar.str (jsToString (JSScalar.num 0))) ∧
    ("c", jsToString (JSScalar.bool false)) ∈ urlQueryPairs
      [("a", ParamVal.scalar (JSScalar.str "")), ("b", ParamVal.scalar (JSScalar.num 0)),
       ("c", ParamVal.scalar (JSScalar.bool false)), ("d", ParamVal.undef)] :=
  ⟨by decide,
   ((futuur_c10_undefined_omitted _ "d" (by decide)).1 (by decide)).2,
   ((futuur_c10_undefined_omitted _ "a" (by decide)).2 (JSScalar.str "") (by decide)).1,
   ((futuur_c10_undefined_omitted _ "b" (by decide)).2 (JSScalar.num 0) (by decide)).2,
   ((futuur_c10_undefined_omitted _ "c" (by decide)).2 (JSScalar.bool false) (by decide)).1⟩
